import Mathlib

/-!
Verification development for the Chatbot Clinic extension (`src/script.py`).

The source is a set of Gradio event handlers (`do_start_chat`, `do_send`,
`do_select`, `do_stop_chat`) operating on a mutable `State` object that holds
the turn step, the bot roster, the randomized bot order and the interface
values (including the shared conversation history).  This file gives a
shallow embedding of those handlers as pure Lean functions on an explicit
state record, and proves the frozen claims about them.

External collaborators are modelled as parameters:
  - `generate_chat_reply` (the text-generation backend) becomes a function
    argument `gen : String → IV → Except String Reply`; the embedding keeps
    only the final element of the yielded stream, which is what the handler
    stores in `bot.reply`.
  - `random.shuffle` becomes a Fisher-Yates pass driven by an injected
    random source `rand : Nat → Nat` (`rand i % (i + 1)` plays the role of
    `randbelow(i + 1)` at loop index `i`), exactly the downward swap loop
    CPython performs.
  - `start_new_chat` and `gather_interface_values` are opaque; their results
    are passed in as the initial history and initial interface values.
  - `load_preset` is opaque; the preset name is carried through unchanged as
    the bot's parameter bundle.
-/

namespace Clinic

/-- The `Step` enum of the source: turn state of the session. -/
inductive Step where
  | idle
  | waitingForMessage
  | generating
  | waitingForVote
  deriving DecidableEq

/-- A generated reply as stored in `bot.reply`: the last `(user, bot)` pair of
the visible history and of the internal history yielded by the generator. -/
structure Reply where
  visible : String × String
  internal : String × String
  deriving DecidableEq

/-- The `Bot` class of the source.  `reply` is the dynamically added attribute
set by `do_send`; it is `none` until the bot has produced a reply. -/
structure Bot where
  identifier : String
  context : String
  parameters : String
  votes : Nat
  reply : Option Reply
  deriving DecidableEq

/-- The chat history dictionary: parallel `visible` and `internal` lists of
`(user_text, bot_text)` pairs. -/
structure History where
  visible : List (String × String)
  internal : List (String × String)
  deriving DecidableEq

/-- The slice of `interface_values` the handlers read or write: the per-bot
`context`, the merged generation-parameter bundle, and the shared `history`.
The remaining interface values never influence the modelled handlers and are
omitted. -/
structure IV where
  context : String
  parameters : String
  history : History
  deriving DecidableEq

/-- The `State` class of the source, together with the attributes added after
construction (`bot_order`, `interface_values`). -/
structure State where
  step : Step
  bots : List Bot
  botOrder : List Nat
  iv : IV
  deriving DecidableEq

/-- One configuration slot of the "Chatbot configuration" tab. -/
structure BotConfigInput where
  enabled : Bool
  identifier : String
  context : String
  preset : String
  deriving DecidableEq

/-- `State.__init__`: step `IDLE`, empty roster (the later-assigned attributes
start out empty as well). -/
def initState (iv0 : IV) : State :=
  { step := Step.idle, bots := [], botOrder := [], iv := iv0 }

/-- `Bot.__init__` applied to one enabled configuration slot; `load_preset` is
opaque, so the preset name stands in for the loaded parameter bundle. -/
def mkBot (c : BotConfigInput) : Bot :=
  { identifier := c.identifier, context := c.context, parameters := c.preset,
    votes := 0, reply := none }

/-- The `start_chat.click` chain: `initialize_state` builds a fresh `State`,
then `do_start_chat` sets the step to `WAITING_FOR_MESSAGE`, installs the
history produced by `start_new_chat` (passed in as `ih`), appends a `Bot` for
every enabled slot, and sets `bot_order = list(range(len(bots)))`.  There is
no validation of the enabled-bot count. -/
def runStartChat (iv0 : IV) (configs : List BotConfigInput) (ih : History) : State :=
  let bots := (configs.filter (fun c => c.enabled)).map mkBot
  { step := Step.waitingForMessage, bots := bots,
    botOrder := List.range bots.length,
    iv := { iv0 with history := ih } }

/-- `do_stop_chat`: the handler takes no state input and returns only widget
visibility updates, so the session state object is left exactly as it was. -/
def doStopChat (s : State) : State := s

/-- Swap the elements at positions `i` and `j` (the Python
`x[i], x[j] = x[j], x[i]`); out-of-range positions leave the list unchanged
(they never occur in the shuffle loop). -/
def listSwap {α : Type} (l : List α) (i j : Nat) : List α :=
  match l[i]?, l[j]? with
  | some a, some b => (l.set i b).set j a
  | _, _ => l

/-- The loop of `random.shuffle`: for `i = n-1, ..., 1`, swap `x[i]` with
`x[j]` where `j = randbelow(i + 1)`.  The fuel argument is the current `i`. -/
def fyGo {α : Type} (rand : Nat → Nat) : Nat → List α → List α
  | 0, l => l
  | i + 1, l => fyGo rand i (listSwap l (i + 1) (rand (i + 1) % (i + 2)))

/-- `random.shuffle` with an injected random source. -/
def fisherYates {α : Type} (rand : Nat → Nat) (l : List α) : List α :=
  fyGo rand (l.length - 1) l

/-- `html.escape` (with its default `quote=True`): the five sequential
replacements are equivalent to this single character map because no
replacement output is itself re-escaped. -/
def htmlEscape (s : String) : String :=
  String.join (s.toList.map (fun c =>
    if c = '&' then ("&amp;")
    else if c = '<' then ("&lt;")
    else if c = '>' then ("&gt;")
    else if c = Char.ofNat 34 then ("&quot;")
    else if c = Char.ofNat 39 then ("&#x27;")
    else String.singleton c))

/-- The winning reply as appended to the visible history by `do_select`: the
bot identifier wrapped in the tag `div`, followed by the reply text. -/
def taggedReply (ident msg : String) : String :=
  ("<div class=\"chatbot-clinic-bot-identifier\">") ++ htmlEscape ident
    ++ ("</div> ") ++ msg

/-- Python's `round` on a rational value: round half to even. -/
def pyRound (q : ℚ) : ℤ :=
  let f : ℤ := Int.floor q
  let r : ℚ := q - (f : ℚ)
  if r < 1 / 2 then f
  else if 1 / 2 < r then f + 1
  else if f % 2 = 0 then f else f + 1

/-- `sum([bot.votes for bot in new_state.bots])`. -/
def sumVotes (bots : List Bot) : Nat :=
  (bots.map Bot.votes).sum

/-- One `d[k] = v` assignment on a Python dict kept as an insertion-ordered
association list: an existing key keeps its position and gets the new value,
a new key is appended. -/
def dictInsert (d : List (String × ℚ)) (k : String) (v : ℚ) : List (String × ℚ) :=
  if d.any (fun p => p.1 == k) then d.map (fun p => if p.1 == k then (k, v) else p)
  else d ++ [(k, v)]

/-- The `ranking_data` dict comprehension of `do_select`,
`{bot.identifier: bot.votes / total_votes for bot in bots}`: built key by key
in roster order, so bots sharing an identifier collapse onto one entry whose
value is the **last** such bot's share.  Division is exact rational division
standing in for Python float division. -/
def rankingOf (bots : List Bot) : List (String × ℚ) :=
  bots.foldl
    (fun d b => dictInsert d b.identifier ((b.votes : ℚ) / (sumVotes bots : ℚ))) []

/-- The `table_data` comprehension of `do_select`. -/
def tableOf (bots : List Bot) : List (String × Nat × ℤ) :=
  bots.map (fun b => (b.identifier, b.votes,
    pyRound ((b.votes : ℚ) / (sumVotes bots : ℚ) * 100)))

/-- The `gr.SelectData` click event: `event.index = (index, sender)`, where
`sender = 1` marks a bot-side bubble. -/
structure SelectData where
  index : Nat
  sender : Nat
  deriving DecidableEq

/-- The observable outcomes of `do_select`:
  - `noop s`: the guard failed and the handler returned the state unchanged;
  - `lookupError s`: `bot_order[bot_index]` or `bots[...]` raised
    `IndexError`, before any mutation (`s` is the unchanged state);
  - `replyError s`: `bot.reply` was missing (`AttributeError`); the step had
    already been mutated when the access raised;
  - `ok s`: the vote was accepted, yielding state `s`; the statistics the
    handler then displays are `rankingOf s.bots` and `tableOf s.bots`. -/
inductive SelectResult where
  | noop (s : State)
  | lookupError (s : State)
  | replyError (s : State)
  | ok (s : State)
  deriving DecidableEq

/-- `do_select` translated statement by statement.  The guard is
`step == WAITING_FOR_VOTE and sender == 1 and index >= len(history["visible"])`;
then `bot_index = index - len(history["visible"])`, the bot lookup (which can
raise), the step change, the history appends, the vote increment, and the
statistics computation. -/
def doSelect (ev : SelectData) (s : State) : SelectResult :=
  if s.step = Step.waitingForVote ∧ ev.sender = 1 ∧
      s.iv.history.visible.length ≤ ev.index then
    match s.botOrder[ev.index - s.iv.history.visible.length]? with
    | none => SelectResult.lookupError s
    | some oi =>
      match s.bots[oi]? with
      | none => SelectResult.lookupError s
      | some bot =>
        match bot.reply with
        | none => SelectResult.replyError { s with step := Step.waitingForMessage }
        | some reply =>
          let newBots := s.bots.set oi { bot with votes := bot.votes + 1 }
          let s2 : State :=
            { s with
              step := Step.waitingForMessage,
              bots := newBots,
              iv := { s.iv with history :=
                { visible := s.iv.history.visible ++
                    [(reply.visible.1, taggedReply bot.identifier reply.visible.2)],
                  internal := s.iv.history.internal ++ [reply.internal] } } }
          SelectResult.ok s2
  else
    SelectResult.noop s

/-- The ways `do_send`'s generation loop can terminate abnormally:
a `GeneratorFailure` from the backend (carrying its message), an `IndexError`
on `bots[bot_index]`, or the `NameError` on `reply_count` that the final yield
raises when the roster is empty. -/
inductive SendErr where
  | genFailure (e : String)
  | indexError
  | nameError
  deriving DecidableEq

/-- One invocation of the Reply Generator inside `do_send`'s loop: which
roster index was visited, and the interface values it was handed. -/
structure CallRec where
  botIndex : Nat
  iv : IV
  deriving DecidableEq

/-- Result of `do_send`'s generation loop: the generator invocations made, the
roster and interface values as mutated so far, and the failure (if any). -/
structure LoopOut where
  calls : List CallRec
  bots : List Bot
  iv : IV
  err : Option SendErr
  deriving DecidableEq

/-- The `for reply_count, bot_index in enumerate(new_state.bot_order)` loop of
`do_send`: for each visited index, set `interface_values["context"]` and merge
the bot's parameters, invoke the generator with the message and the interface
values (whose `history` is the shared history), and store the final reply on
the bot.  A generator failure or an out-of-range roster index aborts the loop
with the mutations made so far. -/
def genLoop (gen : String → IV → Except String Reply) (msg : String) :
    List Nat → IV → List Bot → LoopOut
  | [], iv, bots => { calls := [], bots := bots, iv := iv, err := none }
  | i :: rest, iv, bots =>
    match bots[i]? with
    | none => { calls := [], bots := bots, iv := iv, err := some SendErr.indexError }
    | some b =>
      let iv1 : IV := { iv with context := b.context, parameters := b.parameters }
      match gen msg iv1 with
      | Except.error e =>
        { calls := [{ botIndex := i, iv := iv1 }], bots := bots, iv := iv1,
          err := some (SendErr.genFailure e) }
      | Except.ok r =>
        let out := genLoop gen msg rest iv1 (bots.set i { b with reply := some r })
        { calls := { botIndex := i, iv := iv1 } :: out.calls,
          bots := out.bots, iv := out.iv, err := out.err }

/-- The shuffled visiting order computed by `do_send`. -/
def sendOrder (rand : Nat → Nat) (s : State) : List Nat :=
  fisherYates rand s.botOrder

/-- The generation loop as run by `do_send` on state `s`. -/
def sendLoopOut (gen : String → IV → Except String Reply) (rand : Nat → Nat)
    (msg : String) (s : State) : LoopOut :=
  genLoop gen msg (sendOrder rand s) s.iv s.bots

/-- The generator invocations `do_send` performs on state `s`. -/
def sendCalls (gen : String → IV → Except String Reply) (rand : Nat → Nat)
    (msg : String) (s : State) : List CallRec :=
  (sendLoopOut gen rand msg s).calls

/-- `do_send` translated statement by statement: set step `GENERATING`,
shuffle `bot_order` in place, run the generation loop, then set step
`WAITING_FOR_VOTE`.  On a loop failure the step is still `GENERATING`; with an
empty roster the final yield raises `NameError` on `reply_count` after the
step was already advanced to `WAITING_FOR_VOTE`.  The error payload carries
the session state as mutated at the point of the raise.  There is no check of
the current step anywhere. -/
def doSend (gen : String → IV → Except String Reply) (rand : Nat → Nat)
    (msg : String) (s : State) : Except (SendErr × State) State :=
  let order := sendOrder rand s
  let out := sendLoopOut gen rand msg s
  let sGen : State :=
    { s with step := Step.generating, botOrder := order, bots := out.bots, iv := out.iv }
  let sVote : State :=
    { s with step := Step.waitingForVote, botOrder := order, bots := out.bots, iv := out.iv }
  match out.err with
  | some e => Except.error (e, sGen)
  | none =>
    match order with
    | [] => Except.error (SendErr.nameError, sVote)
    | _ :: _ => Except.ok sVote

/-- An operation of the UI boundary, with its external collaborators. -/
inductive Op where
  | startChat (iv0 : IV) (configs : List BotConfigInput) (ih : History)
  | sendMsg (gen : String → IV → Except String Reply) (rand : Nat → Nat) (msg : String)
  | select (ev : SelectData)
  | stopChat

/-- State carried by the host after `do_send`, whether it finished or raised:
the (in-place mutated) session state. -/
def resultState : Except (SendErr × State) State → State
  | Except.ok s => s
  | Except.error (_, s) => s

/-- One UI event applied to (state, completed voting rounds of the current
session).  `startChat` rebuilds the state from scratch (the click chain runs
`initialize_state` first), so the round counter restarts; a `select` that is
accepted completes exactly one round. -/
def stepRun (p : State × Nat) (op : Op) : State × Nat :=
  match op with
  | Op.startChat iv0 configs ih => (runStartChat iv0 configs ih, 0)
  | Op.sendMsg gen rand msg => (resultState (doSend gen rand msg p.1), p.2)
  | Op.select ev =>
    match doSelect ev p.1 with
    | SelectResult.ok s2 => (s2, p.2 + 1)
    | SelectResult.noop s2 => (s2, p.2)
    | SelectResult.lookupError s2 => (s2, p.2)
    | SelectResult.replyError s2 => (s2, p.2)
  | Op.stopChat => (doStopChat p.1, p.2)

/-- A whole interaction: fold the events over the freshly constructed state. -/
def run (iv0 : IV) (ops : List Op) : State × Nat :=
  ops.foldl stepRun (initState iv0, 0)

/-! ### Helper lemmas -/

/-- Replacing the element at a valid position and moving the old element to
the front is a permutation of putting the new element at the front. -/
theorem cons_set_perm {α : Type} :
    ∀ (xs : List α) (j : Nat) (b x : α), xs[j]? = some b →
      (b :: xs.set j x).Perm (x :: xs)
  | [], j, b, x, h => by simp at h
  | y :: ys, 0, b, x, h => by
      simp at h
      subst h
      simpa using List.Perm.swap x y ys
  | y :: ys, j + 1, b, x, h => by
      simp at h
      have ih := cons_set_perm ys j b x h
      have h1 : (b :: y :: ys.set j x).Perm (y :: b :: ys.set j x) :=
        List.Perm.swap y b (ys.set j x)
      have h2 : (y :: b :: ys.set j x).Perm (y :: x :: ys) := ih.cons y
      have h3 : (y :: x :: ys).Perm (x :: y :: ys) := List.Perm.swap x y ys
      simpa using (h1.trans h2).trans h3

/-- A two-sided element exchange by `set` at valid positions is a
permutation. -/
theorem set_swap_perm {α : Type} :
    ∀ (l : List α) (i j : Nat) (a b : α), l[i]? = some a → l[j]? = some b →
      ((l.set i b).set j a).Perm l
  | [], _, _, _, _, hi, _ => by simp at hi
  | x :: xs, 0, 0, a, b, hi, hj => by
      simp at hi hj
      subst hi
      subst hj
      simp
  | x :: xs, 0, j + 1, a, b, hi, hj => by
      simp at hi hj
      subst hi
      simpa using cons_set_perm xs j b x hj
  | x :: xs, i + 1, 0, a, b, hi, hj => by
      simp at hi hj
      subst hj
      simpa using cons_set_perm xs i a x hi
  | x :: xs, i + 1, j + 1, a, b, hi, hj => by
      simp at hi hj
      simpa using (set_swap_perm xs i j a b hi hj).cons x

/-- One swap of the shuffle loop permutes the list. -/
theorem listSwap_perm {α : Type} (l : List α) (i j : Nat) :
    (listSwap l i j).Perm l := by
  unfold listSwap
  split
  · rename_i a b hi hj
    exact set_swap_perm l i j a b hi hj
  · exact List.Perm.refl l

/-- The shuffle loop permutes the list, whatever the random draws are. -/
theorem fyGo_perm {α : Type} (rand : Nat → Nat) :
    ∀ (n : Nat) (l : List α), (fyGo rand n l).Perm l
  | 0, l => List.Perm.refl l
  | n + 1, l =>
      (fyGo_perm rand n (listSwap l (n + 1) (rand (n + 1) % (n + 2)))).trans
        (listSwap_perm l (n + 1) (rand (n + 1) % (n + 2)))

/-- `random.shuffle` produces a permutation of its input for every random
source. -/
theorem fisherYates_perm {α : Type} (rand : Nat → Nat) (l : List α) :
    (fisherYates rand l).Perm l :=
  fyGo_perm rand (l.length - 1) l

/-- `set` with an element that agrees under `f` leaves `map f` unchanged. -/
theorem map_set_congr {α β : Type} (f : α → β) :
    ∀ (l : List α) (i : Nat) (a b : α), l[i]? = some b → f a = f b →
      (l.set i a).map f = l.map f
  | [], _, _, _, h, _ => by simp at h
  | x :: xs, 0, a, b, h, hf => by
      simp at h
      subst h
      simp [hf]
  | x :: xs, i + 1, a, b, h, hf => by
      simp at h
      simp [map_set_congr f xs i a b h hf]

/-- Incrementing one bot's vote counter in place raises the vote total by
exactly one. -/
theorem sumVotes_set_succ :
    ∀ (l : List Bot) (i : Nat) (b : Bot), l[i]? = some b →
      sumVotes (l.set i { b with votes := b.votes + 1 }) = sumVotes l + 1
  | [], _, _, h => by simp at h
  | x :: xs, 0, b, h => by
      simp at h
      subst h
      simp [sumVotes]
      omega
  | x :: xs, i + 1, b, h => by
      simp at h
      have ih := sumVotes_set_succ xs i b h
      simp [sumVotes] at ih ⊢
      omega


/-- The generation loop never touches the shared history inside the
interface values. -/
theorem genLoop_iv_history (gen : String → IV → Except String Reply) (msg : String) :
    ∀ (order : List Nat) (iv : IV) (bots : List Bot),
      (genLoop gen msg order iv bots).iv.history = iv.history
  | [], _, _ => rfl
  | i :: rest, iv, bots => by
      simp only [genLoop]
      cases h : bots[i]? with
      | none => rfl
      | some b =>
        dsimp only
        cases hg : gen msg { iv with context := b.context, parameters := b.parameters } with
        | error e => rfl
        | ok r => exact genLoop_iv_history gen msg rest _ _

/-- Every generator invocation of the loop is handed interface values whose
history is the shared history the loop started from. -/
theorem genLoop_calls_history (gen : String → IV → Except String Reply) (msg : String) :
    ∀ (order : List Nat) (iv : IV) (bots : List Bot),
      ∀ c ∈ (genLoop gen msg order iv bots).calls, c.iv.history = iv.history
  | [], _, _ => by intro c hc; simp [genLoop] at hc
  | i :: rest, iv, bots => by
      intro c hc
      simp only [genLoop] at hc
      cases h : bots[i]? with
      | none => simp only [h] at hc; simp at hc
      | some b =>
        simp only [h] at hc
        cases hg : gen msg { iv with context := b.context, parameters := b.parameters } with
        | error e =>
          simp only [hg] at hc
          simp at hc
          subst hc
          rfl
        | ok r =>
          simp only [hg] at hc
          simp at hc
          rcases hc with hc | hc
          · subst hc; rfl
          · exact genLoop_calls_history gen msg rest
              { iv with context := b.context, parameters := b.parameters } _ c hc

/-- The generation loop never changes any vote counter. -/
theorem genLoop_votes (gen : String → IV → Except String Reply) (msg : String) :
    ∀ (order : List Nat) (iv : IV) (bots : List Bot),
      (genLoop gen msg order iv bots).bots.map Bot.votes = bots.map Bot.votes
  | [], _, _ => rfl
  | i :: rest, iv, bots => by
      simp only [genLoop]
      cases h : bots[i]? with
      | none => rfl
      | some b =>
        dsimp only
        cases hg : gen msg { iv with context := b.context, parameters := b.parameters } with
        | error e => rfl
        | ok r =>
          have ih := genLoop_votes gen msg rest
            { iv with context := b.context, parameters := b.parameters }
            (bots.set i { b with reply := some r })
          dsimp only
          rw [ih]
          exact map_set_congr Bot.votes bots i { b with reply := some r } b h rfl

/-- The generation loop never changes any identifier, and never reorders the
roster. -/
theorem genLoop_idents (gen : String → IV → Except String Reply) (msg : String) :
    ∀ (order : List Nat) (iv : IV) (bots : List Bot),
      (genLoop gen msg order iv bots).bots.map Bot.identifier = bots.map Bot.identifier
  | [], _, _ => rfl
  | i :: rest, iv, bots => by
      simp only [genLoop]
      cases h : bots[i]? with
      | none => rfl
      | some b =>
        dsimp only
        cases hg : gen msg { iv with context := b.context, parameters := b.parameters } with
        | error e => rfl
        | ok r =>
          have ih := genLoop_idents gen msg rest
            { iv with context := b.context, parameters := b.parameters }
            (bots.set i { b with reply := some r })
          dsimp only
          rw [ih]
          exact map_set_congr Bot.identifier bots i { b with reply := some r } b h rfl

/-- The visited indices are an initial segment of the intended order: no bot
is visited twice or out of turn, even on abnormal termination. -/
theorem genLoop_calls_take (gen : String → IV → Except String Reply) (msg : String) :
    ∀ (order : List Nat) (iv : IV) (bots : List Bot),
      ∃ t, ((genLoop gen msg order iv bots).calls.map CallRec.botIndex) ++ t = order
  | [], _, _ => ⟨[], rfl⟩
  | i :: rest, iv, bots => by
      simp only [genLoop]
      cases h : bots[i]? with
      | none => exact ⟨i :: rest, rfl⟩
      | some b =>
        dsimp only
        cases hg : gen msg { iv with context := b.context, parameters := b.parameters } with
        | error e => exact ⟨rest, rfl⟩
        | ok r =>
          obtain ⟨t, ht⟩ := genLoop_calls_take gen msg rest
            { iv with context := b.context, parameters := b.parameters }
            (bots.set i { b with reply := some r })
          exact ⟨t, by simp [ht]⟩

/-- When the loop terminates normally it has visited exactly the intended
order. -/
theorem genLoop_calls_of_ok (gen : String → IV → Except String Reply) (msg : String) :
    ∀ (order : List Nat) (iv : IV) (bots : List Bot),
      (genLoop gen msg order iv bots).err = none →
      (genLoop gen msg order iv bots).calls.map CallRec.botIndex = order
  | [], _, _ => by intro _; rfl
  | i :: rest, iv, bots => by
      intro he
      simp only [genLoop] at he ⊢
      cases h : bots[i]? with
      | none => simp only [h] at he; simp at he
      | some b =>
        simp only [h] at he ⊢
        cases hg : gen msg { iv with context := b.context, parameters := b.parameters } with
        | error e => simp only [hg] at he; simp at he
        | ok r =>
          simp only [hg] at he ⊢
          simp at he ⊢
          exact genLoop_calls_of_ok gen msg rest _ _ he


/-- Success inversion for `do_send`: the final state, the absence of loop
failure, and the non-empty roster. -/
theorem doSend_ok_inv (gen : String → IV → Except String Reply) (rand : Nat → Nat)
    (msg : String) (s s' : State) (h : doSend gen rand msg s = Except.ok s') :
    s' = { s with
           step := Step.waitingForVote,
           botOrder := sendOrder rand s,
           bots := (sendLoopOut gen rand msg s).bots,
           iv := (sendLoopOut gen rand msg s).iv } ∧
    (sendLoopOut gen rand msg s).err = none ∧ sendOrder rand s ≠ [] := by
  simp only [doSend] at h
  split at h
  · exact absurd h (by simp)
  · rename_i hnone
    split at h
    · exact absurd h (by simp)
    · rename_i a l horder
      refine ⟨?_, hnone, ?_⟩
      · injection h with h1
        exact h1.symm
      · rw [horder]
        simp

/-- Failure inversion for `do_send`: either the empty-roster `NameError`
(step already advanced to `WAITING_FOR_VOTE`), or a loop failure (step still
`GENERATING`). -/
theorem doSend_err_inv (gen : String → IV → Except String Reply) (rand : Nat → Nat)
    (msg : String) (s s' : State) (e : SendErr)
    (h : doSend gen rand msg s = Except.error (e, s')) :
    (e = SendErr.nameError ∧ (sendLoopOut gen rand msg s).err = none ∧
      sendOrder rand s = [] ∧
      s' = { s with
             step := Step.waitingForVote,
             botOrder := sendOrder rand s,
             bots := (sendLoopOut gen rand msg s).bots,
             iv := (sendLoopOut gen rand msg s).iv }) ∨
    ((sendLoopOut gen rand msg s).err = some e ∧
      s' = { s with
             step := Step.generating,
             botOrder := sendOrder rand s,
             bots := (sendLoopOut gen rand msg s).bots,
             iv := (sendLoopOut gen rand msg s).iv }) := by
  simp only [doSend] at h
  split at h
  · rename_i e0 herr
    right
    injection h with h1
    injection h1 with h2 h3
    subst h2
    exact ⟨herr, h3.symm⟩
  · rename_i hnone
    split at h
    · rename_i horder
      left
      injection h with h1
      injection h1 with h2 h3
      subst h2
      exact ⟨rfl, hnone, horder, h3.symm⟩
    · exact absurd h (by simp)

/-- The state the host holds after `do_send`, finished or raised: roster and
interface values come from the loop, the order from the shuffle. -/
theorem doSend_resultState (gen : String → IV → Except String Reply) (rand : Nat → Nat)
    (msg : String) (s : State) :
    (resultState (doSend gen rand msg s)).bots = (sendLoopOut gen rand msg s).bots ∧
    (resultState (doSend gen rand msg s)).iv = (sendLoopOut gen rand msg s).iv ∧
    (resultState (doSend gen rand msg s)).botOrder = sendOrder rand s := by
  simp only [doSend]
  split
  · simp [resultState]
  · split
    · simp [resultState]
    · simp [resultState]

/-- `do_send` never changes any vote counter, whatever happens. -/
theorem doSend_votes (gen : String → IV → Except String Reply) (rand : Nat → Nat)
    (msg : String) (s : State) :
    (resultState (doSend gen rand msg s)).bots.map Bot.votes = s.bots.map Bot.votes := by
  rw [(doSend_resultState gen rand msg s).1]
  exact genLoop_votes gen msg (sendOrder rand s) s.iv s.bots

/-- `do_send` never changes the shared conversation history, whatever
happens. -/
theorem doSend_shared_history (gen : String → IV → Except String Reply) (rand : Nat → Nat)
    (msg : String) (s : State) :
    (resultState (doSend gen rand msg s)).iv.history = s.iv.history := by
  rw [(doSend_resultState gen rand msg s).2.1]
  exact genLoop_iv_history gen msg (sendOrder rand s) s.iv s.bots

/-- `do_select` outside `WAITING_FOR_VOTE` is a silent no-op. -/
theorem doSelect_wrongStep (ev : SelectData) (s : State)
    (h : s.step ≠ Step.waitingForVote) : doSelect ev s = SelectResult.noop s := by
  unfold doSelect
  rw [if_neg]
  intro hc
  exact h hc.1

/-- A `noop` outcome returns the state unchanged. -/
theorem doSelect_noop_inv (ev : SelectData) (s s' : State)
    (h : doSelect ev s = SelectResult.noop s') : s' = s := by
  simp only [doSelect] at h
  split at h
  · split at h
    · exact absurd h (by simp)
    · split at h
      · exact absurd h (by simp)
      · split at h
        · exact absurd h (by simp)
        · exact absurd h (by simp)
  · injection h with h1
    exact h1.symm

/-- A `lookupError` outcome (the `IndexError` of the bot lookup) returns the
state unchanged: the exception is raised before any mutation. -/
theorem doSelect_lookup_inv (ev : SelectData) (s s' : State)
    (h : doSelect ev s = SelectResult.lookupError s') : s' = s := by
  simp only [doSelect] at h
  split at h
  · split at h
    · injection h with h1
      exact h1.symm
    · split at h
      · injection h with h1
        exact h1.symm
      · split at h
        · exact absurd h (by simp)
        · exact absurd h (by simp)
  · exact absurd h (by simp)

/-- A `replyError` outcome only changed the step (the raise happened after
the step assignment): roster, order and history are untouched. -/
theorem doSelect_reply_inv (ev : SelectData) (s s' : State)
    (h : doSelect ev s = SelectResult.replyError s') :
    s'.bots = s.bots ∧ s'.botOrder = s.botOrder ∧ s'.iv = s.iv := by
  simp only [doSelect] at h
  split at h
  · split at h
    · exact absurd h (by simp)
    · split at h
      · exact absurd h (by simp)
      · split at h
        · injection h with h1
          subst h1
          exact ⟨rfl, rfl, rfl⟩
        · exact absurd h (by simp)
  · exact absurd h (by simp)

/-- Success inversion for `do_select`: the accepted vote went to the bot at
roster index `bot_order[index - len(history)]`; that bot alone has its vote
counter incremented, exactly one tagged entry is appended to each history
list, and the step returns to `WAITING_FOR_MESSAGE`. -/
theorem doSelect_ok_inv (ev : SelectData) (s s' : State)
    (h : doSelect ev s = SelectResult.ok s') :
    ∃ oi bot reply,
      s.step = Step.waitingForVote ∧ ev.sender = 1 ∧
      s.iv.history.visible.length ≤ ev.index ∧
      s.botOrder[ev.index - s.iv.history.visible.length]? = some oi ∧
      s.bots[oi]? = some bot ∧ bot.reply = some reply ∧
      s' = { s with
             step := Step.waitingForMessage,
             bots := s.bots.set oi { bot with votes := bot.votes + 1 },
             iv := { s.iv with history :=
               { visible := s.iv.history.visible ++
                   [(reply.visible.1, taggedReply bot.identifier reply.visible.2)],
                 internal := s.iv.history.internal ++ [reply.internal] } } } := by
  simp only [doSelect] at h
  split at h
  · rename_i hcond
    split at h
    · exact absurd h (by simp)
    · rename_i oi hoi
      split at h
      · exact absurd h (by simp)
      · rename_i bot hbot
        split at h
        · exact absurd h (by simp)
        · rename_i reply hreply
          injection h with h1
          exact ⟨oi, bot, reply, hcond.1, hcond.2.1, hcond.2.2, hoi, hbot, hreply, h1.symm⟩
  · exact absurd h (by simp)


/-- A freshly built roster has vote total zero. -/
theorem sumVotes_mkBots : ∀ (l : List BotConfigInput), sumVotes (l.map mkBot) = 0
  | [] => rfl
  | c :: cs => by
      have ih := sumVotes_mkBots cs
      simp [sumVotes, mkBot] at ih ⊢
      exact ih

/-- Distributing a common denominator out of the per-bot shares. -/
theorem votes_div_sum (T : ℚ) :
    ∀ (l : List Bot), (l.map (fun b => (b.votes : ℚ) / T)).sum = (sumVotes l : ℚ) / T
  | [] => by simp [sumVotes]
  | b :: bs => by
      have ih := votes_div_sum T bs
      simp only [sumVotes, List.map_cons, List.sum_cons] at ih ⊢
      rw [ih]
      push_cast
      ring

/-- Building the dict over bots whose identifiers are all distinct (and
disjoint from the keys already present) appends one entry per bot. -/
theorem rankingFold_nodup (v : Bot → ℚ) :
    ∀ (l : List Bot) (acc : List (String × ℚ)),
      (∀ b ∈ l, ∀ p ∈ acc, p.1 ≠ b.identifier) →
      (l.map Bot.identifier).Nodup →
      l.foldl (fun d b => dictInsert d b.identifier (v b)) acc
        = acc ++ l.map (fun b => (b.identifier, v b))
  | [], acc, _, _ => by simp
  | b :: bs, acc, hdisj, hnd => by
      simp only [List.foldl_cons]
      have hany : acc.any (fun p => p.1 == b.identifier) = false := by
        rw [List.any_eq_false]
        intro p hp
        simpa using hdisj b (by simp) p hp
      have hins : dictInsert acc b.identifier (v b) = acc ++ [(b.identifier, v b)] := by
        simp [dictInsert, hany]
      rw [hins]
      simp only [List.map_cons, List.nodup_cons] at hnd
      have hd : ∀ b' ∈ bs, ∀ p ∈ acc ++ [(b.identifier, v b)], p.1 ≠ b'.identifier := by
        intro b' hb' p hp
        rcases List.mem_append.mp hp with hp | hp
        · exact hdisj b' (by simp [hb']) p hp
        · simp only [List.mem_singleton] at hp
          subst hp
          intro hEq
          have hmem : b'.identifier ∈ bs.map Bot.identifier :=
            List.mem_map_of_mem Bot.identifier hb'
          have hEq' : b.identifier = b'.identifier := hEq
          rw [← hEq'] at hmem
          exact hnd.1 hmem
      have ih := rankingFold_nodup v bs (acc ++ [(b.identifier, v b)]) hd hnd.2
      rw [ih]
      simp

/-- With all identifiers distinct, the ranking dict has exactly one entry per
bot, in roster order, holding that bot's share. -/
theorem rankingOf_eq_map (bots : List Bot)
    (hnd : (bots.map Bot.identifier).Nodup) :
    rankingOf bots =
      bots.map (fun b => (b.identifier, (b.votes : ℚ) / (sumVotes bots : ℚ))) := by
  have h := rankingFold_nodup (fun b => (b.votes : ℚ) / (sumVotes bots : ℚ))
    bots [] (by simp) hnd
  simpa [rankingOf] using h

/-- With all identifiers distinct and a positive vote total, the displayed
shares sum to exactly 1. -/
theorem rankingOf_sum (bots : List Bot)
    (hnd : (bots.map Bot.identifier).Nodup) (h : 0 < sumVotes bots) :
    ((rankingOf bots).map Prod.snd).sum = 1 := by
  rw [rankingOf_eq_map bots hnd]
  have hmap : ((bots.map (fun b =>
      (b.identifier, (b.votes : ℚ) / (sumVotes bots : ℚ)))).map Prod.snd) =
      bots.map (fun b => (b.votes : ℚ) / (sumVotes bots : ℚ)) := by
    simp [List.map_map]
  rw [hmap, votes_div_sum]
  rw [div_self]
  exact_mod_cast h.ne'

/-- One UI event preserves the invariant "vote total = completed rounds of
the current session". -/
theorem stepRun_votes (p : State × Nat) (op : Op) (h : sumVotes p.1.bots = p.2) :
    sumVotes (stepRun p op).1.bots = (stepRun p op).2 := by
  match op with
  | Op.startChat iv0 configs ih =>
      simp only [stepRun, runStartChat]
      exact sumVotes_mkBots _
  | Op.sendMsg gen rand msg =>
      simp only [stepRun]
      rw [← h]
      unfold sumVotes
      rw [doSend_votes]
  | Op.select ev =>
      simp only [stepRun]
      cases hs : doSelect ev p.1 with
      | noop s2 =>
          have h2 := doSelect_noop_inv ev p.1 s2 hs
          subst h2
          exact h
      | lookupError s2 =>
          have h2 := doSelect_lookup_inv ev p.1 s2 hs
          subst h2
          exact h
      | replyError s2 =>
          have h2 := (doSelect_reply_inv ev p.1 s2 hs).1
          dsimp only
          rw [h2]
          exact h
      | ok s2 =>
          obtain ⟨oi, bot, reply, _, _, _, hoi, hbot, hreply, hs2⟩ :=
            doSelect_ok_inv ev p.1 s2 hs
          subst hs2
          dsimp only
          rw [sumVotes_set_succ p.1.bots oi bot hbot, h]
  | Op.stopChat =>
      simpa [stepRun, doStopChat] using h

/-- The invariant holds along any fold of UI events. -/
theorem run_votes_aux :
    ∀ (ops : List Op) (p : State × Nat), sumVotes p.1.bots = p.2 →
      sumVotes (ops.foldl stepRun p).1.bots = (ops.foldl stepRun p).2
  | [], _, h => h
  | op :: ops, p, h => run_votes_aux ops (stepRun p op) (stepRun_votes p op h)

/-- After any sequence of UI events, the vote total equals the number of
completed voting rounds of the current session. -/
theorem run_votes (iv0 : IV) (ops : List Op) :
    sumVotes (run iv0 ops).1.bots = (run iv0 ops).2 :=
  run_votes_aux ops (initState iv0, 0) rfl


/-! ### Concrete fixtures used by witnesses and counterexamples -/

def emptyHist : History := { visible := [], internal := [] }

def iv0c : IV := { context := "", parameters := "", history := emptyHist }

def r0 : Reply := { visible := ("hi", "yo"), internal := ("hi", "yo") }

def r2 : Reply := { visible := ("a", "b"), internal := ("a", "b") }

def bot0 : Bot :=
  { identifier := "Bot 1", context := "ctx", parameters := "preset",
    votes := 0, reply := some r0 }

def demoBot : Bot := { bot0 with votes := 1 }

def st0 : State :=
  { step := Step.waitingForVote, bots := [bot0], botOrder := [0],
    iv := { context := "ctx", parameters := "preset", history := emptyHist } }

def ev0 : SelectData := { index := 0, sender := 1 }

def evBig : SelectData := { index := 1, sender := 1 }

def evBig2 : SelectData := { index := 5, sender := 1 }

def hist1 : History :=
  { visible := [(("hi"), taggedReply ("Bot 1") ("yo"))], internal := [("hi", "yo")] }

def st1c : State :=
  { st0 with
    step := Step.waitingForMessage,
    bots := [demoBot],
    iv := { st0.iv with history := hist1 } }

def cfg1 : BotConfigInput :=
  { enabled := true, identifier := "Bot 1", context := "ctx", preset := "preset" }

def cfg0 : BotConfigInput :=
  { enabled := false, identifier := "Bot 1", context := "ctx", preset := "preset" }

def stc : State := runStartChat iv0c [cfg1] emptyHist

def genC2 : String → IV → Except String Reply := fun _ _ => Except.ok r2

def genF : String → IV → Except String Reply := fun _ _ => Except.error ("boom")

def randC : Nat → Nat := fun _ => 0

def sQc : State :=
  { st0 with
    step := Step.waitingForVote,
    bots := [{ bot0 with reply := some r2 }] }

def sFc : State :=
  { stc with
    step := Step.generating,
    iv := { context := "ctx", parameters := "preset", history := emptyHist } }

def s2c : State :=
  { stc with
    step := Step.waitingForVote,
    bots := [{ mkBot cfg1 with reply := some r2 }],
    iv := { context := "ctx", parameters := "preset", history := emptyHist } }

/-- Shared helper: a bot-side click in `WAITING_FOR_VOTE` whose index is at or
beyond `len(history) + len(bot_order)` raises the lookup `IndexError` with the
state untouched. -/
theorem select_out_of_range (s : State) (ev : SelectData)
    (h1 : s.step = Step.waitingForVote) (h2 : ev.sender = 1)
    (h3 : s.iv.history.visible.length + s.botOrder.length ≤ ev.index) :
    doSelect ev s = SelectResult.lookupError s := by
  have hge : s.iv.history.visible.length ≤ ev.index :=
    le_trans (Nat.le_add_right _ _) h3
  have hnone : s.botOrder[ev.index - s.iv.history.visible.length]? = none := by
    apply List.getElem?_eq_none
    omega
  unfold doSelect
  rw [if_pos ⟨h1, h2, hge⟩, hnone]

/-! ### Claims -/

/-- C1: an accepted vote in `WAITING_FOR_VOTE` increments exactly the chosen
bot's counter (all other counters are untouched, expressed by the single
`List.set`), appends exactly one entry tagged with that bot's identifier to
the shared conversation history, and returns the step to
`WAITING_FOR_MESSAGE`; consequently, over any sequence of UI events, the vote
total equals the number of completed voting rounds of the session. -/
theorem claim_C1 :
    (∀ (ev : SelectData) (s s' : State), doSelect ev s = SelectResult.ok s' →
      ∃ oi bot reply,
        s.botOrder[ev.index - s.iv.history.visible.length]? = some oi ∧
        s.bots[oi]? = some bot ∧ bot.reply = some reply ∧
        s'.bots = s.bots.set oi { bot with votes := bot.votes + 1 } ∧
        s'.step = Step.waitingForMessage ∧
        s'.iv.history.visible = s.iv.history.visible ++
          [(reply.visible.1, taggedReply bot.identifier reply.visible.2)] ∧
        s'.iv.history.internal = s.iv.history.internal ++ [reply.internal] ∧
        sumVotes s'.bots = sumVotes s.bots + 1) ∧
    (∀ (iv0 : IV) (ops : List Op),
      sumVotes (run iv0 ops).1.bots = (run iv0 ops).2) := by
  constructor
  · intro ev s s' h
    obtain ⟨oi, bot, reply, _, _, _, hoi, hbot, hreply, hs'⟩ := doSelect_ok_inv ev s s' h
    subst hs'
    exact ⟨oi, bot, reply, hoi, hbot, hreply, rfl, rfl, rfl, rfl,
      sumVotes_set_succ s.bots oi bot hbot⟩
  · exact run_votes

theorem claim_C1_witness :
    (∃ oi bot reply,
        st0.botOrder[ev0.index - st0.iv.history.visible.length]? = some oi ∧
        st0.bots[oi]? = some bot ∧ bot.reply = some reply ∧
        st1c.bots = st0.bots.set oi { bot with votes := bot.votes + 1 } ∧
        st1c.step = Step.waitingForMessage ∧
        st1c.iv.history.visible = st0.iv.history.visible ++
          [(reply.visible.1, taggedReply bot.identifier reply.visible.2)] ∧
        st1c.iv.history.internal = st0.iv.history.internal ++ [reply.internal] ∧
        sumVotes st1c.bots = sumVotes st0.bots + 1) ∧
    sumVotes (run iv0c [Op.select ev0]).1.bots = (run iv0c [Op.select ev0]).2 :=
  ⟨claim_C1.1 ev0 st0 st1c (by rfl), claim_C1.2 iv0c [Op.select ev0]⟩

/-- C2 counterexample: the claim "accept_reply in a wrong state fails with
InvalidStateError, and submit_message in a wrong state is rejected rather
than starting generation" is false on the code.  Immediately after starting a
chat (step `WAITING_FOR_MESSAGE`), a vote click is a silent no-op, not an
error; and `do_send` invoked in `WAITING_FOR_VOTE` runs a full generation
round (mutating the roster's stored replies) and ends in `WAITING_FOR_VOTE`
instead of being rejected. -/
theorem claim_C2_counter :
    doSelect ev0 stc = SelectResult.noop stc ∧
    doSend genC2 randC ("m") st0 = Except.ok sQc ∧
    sQc.bots ≠ st0.bots := by
  refine ⟨by decide, by rfl, by decide⟩

/-- C2 (amended): operations in a wrong turn state do not mutate session
state, but not via errors: `do_select` outside `WAITING_FOR_VOTE` (in
particular right after `do_start_chat`) returns the state unchanged without
raising anything, and `do_send` performs no state check at all — from any
state a successful run ends in `WAITING_FOR_VOTE` (rejection exists only as
UI widget interactivity, not in the handler). -/
theorem claim_C2 :
    (∀ (ev : SelectData) (s : State), s.step ≠ Step.waitingForVote →
      doSelect ev s = SelectResult.noop s) ∧
    (∀ (gen : String → IV → Except String Reply) (rand : Nat → Nat) (msg : String)
      (s s' : State), doSend gen rand msg s = Except.ok s' →
      s'.step = Step.waitingForVote) := by
  constructor
  · exact doSelect_wrongStep
  · intro gen rand msg s s' h
    rw [(doSend_ok_inv gen rand msg s s' h).1]

theorem claim_C2_witness :
    doSelect evBig stc = SelectResult.noop stc ∧ sQc.step = Step.waitingForVote :=
  ⟨claim_C2.1 evBig stc (by decide), claim_C2.2 genC2 randC ("m") st0 sQc (by rfl)⟩

/-- C3: in `WAITING_FOR_VOTE`, a selection that refers to no pending reply
(click index at or beyond `len(history) + len(bot_order)`) fails — the code
raises the `IndexError` of the `bot_order` lookup — and every part of the
session state is left unchanged, the exception being raised before any
mutation. -/
theorem claim_C3 (s : State) (ev : SelectData)
    (h1 : s.step = Step.waitingForVote) (h2 : ev.sender = 1)
    (h3 : s.iv.history.visible.length + s.botOrder.length ≤ ev.index) :
    doSelect ev s = SelectResult.lookupError s :=
  select_out_of_range s ev h1 h2 h3

theorem claim_C3_witness :
    doSelect evBig2 st0 = SelectResult.lookupError st0 :=
  claim_C3 st0 evBig2 (by decide) (by decide) (by decide)


/-- C4 counterexample: the claim "with zero enabled bots, start_session fails
with ConfigurationError and does not create a session" is false on the code:
`do_start_chat` performs no validation, and with a single disabled slot it
still transitions to `WAITING_FOR_MESSAGE` with an empty roster. -/
theorem claim_C4_counter :
    (runStartChat iv0c [cfg0] emptyHist).step = Step.waitingForMessage ∧
    (runStartChat iv0c [cfg0] emptyHist).bots = [] := by
  exact ⟨rfl, rfl⟩

/-- C4 (amended): `do_start_chat` validates nothing: it always transitions to
`WAITING_FOR_MESSAGE`, with exactly the enabled slots as the roster.  With
zero enabled bots the session is still created; the failure only surfaces on
the next `do_send`, which raises `NameError` on the empty roster (after
having already advanced the step to `WAITING_FOR_VOTE`) — there is no
`ConfigurationError` anywhere. -/
theorem claim_C4 (iv0 : IV) (configs : List BotConfigInput) (ih : History) :
    (runStartChat iv0 configs ih).step = Step.waitingForMessage ∧
    (runStartChat iv0 configs ih).bots = (configs.filter (fun c => c.enabled)).map mkBot ∧
    ((configs.filter (fun c => c.enabled)) = [] →
      ∀ (gen : String → IV → Except String Reply) (rand : Nat → Nat) (msg : String),
        doSend gen rand msg (runStartChat iv0 configs ih) =
          Except.error (SendErr.nameError,
            { runStartChat iv0 configs ih with
              step := Step.waitingForVote,
              botOrder := [] })) := by
  refine ⟨rfl, rfl, ?_⟩
  intro hz gen rand msg
  have hb : (runStartChat iv0 configs ih).botOrder = [] := by
    simp [runStartChat, hz]
  have hso : sendOrder rand (runStartChat iv0 configs ih) = [] := by
    rw [sendOrder, hb]
    rfl
  have hout : sendLoopOut gen rand msg (runStartChat iv0 configs ih) =
      { calls := [], bots := (runStartChat iv0 configs ih).bots,
        iv := (runStartChat iv0 configs ih).iv, err := none } := by
    rw [sendLoopOut, hso]
    rfl
  simp only [doSend, hout, hso]

theorem claim_C4_witness :
    (runStartChat iv0c [cfg0] emptyHist).bots =
      (([cfg0] : List BotConfigInput).filter (fun c => c.enabled)).map mkBot ∧
    doSend genC2 randC ("m") (runStartChat iv0c [cfg0] emptyHist) =
      Except.error (SendErr.nameError,
        { runStartChat iv0c [cfg0] emptyHist with
          step := Step.waitingForVote,
          botOrder := [] }) :=
  ⟨(claim_C4 iv0c [cfg0] emptyHist).2.1,
   (claim_C4 iv0c [cfg0] emptyHist).2.2 (by decide) genC2 randC ("m")⟩

/-- C5 counterexample: the claim "a generator failure returns the session to
AwaitingMessage" is false on the code: with a failing generator, `do_send`
propagates the failure while the session state is left with step
`GENERATING`, not `WAITING_FOR_MESSAGE`. -/
theorem claim_C5_counter :
    doSend genF randC ("m") stc = Except.error (SendErr.genFailure ("boom"), sFc) ∧
    sFc.step ≠ Step.waitingForMessage := by
  exact ⟨by rfl, by decide⟩

/-- C5 (amended): a generator failure aborts the round: the exception
propagates to the caller carrying the failure (not swallowed, and each bot
was visited at most once — the visited indices are an initial segment of the
shuffled order), no vote round can take place (a vote click on the resulting
state is a no-op), vote counters and the shared history are untouched — but
the session is left in `GENERATING`, it does not return to
`WAITING_FOR_MESSAGE`. -/
theorem claim_C5 (gen : String → IV → Except String Reply) (rand : Nat → Nat)
    (msg : String) (s s' : State) (e : String)
    (h : doSend gen rand msg s = Except.error (SendErr.genFailure e, s')) :
    s'.step = Step.generating ∧
    s'.bots.map Bot.votes = s.bots.map Bot.votes ∧
    s'.iv.history = s.iv.history ∧
    (∀ ev, doSelect ev s' = SelectResult.noop s') ∧
    (∃ t, ((sendCalls gen rand msg s).map CallRec.botIndex) ++ t = sendOrder rand s) := by
  rcases doSend_err_inv gen rand msg s s' (SendErr.genFailure e) h with
    ⟨habs, _⟩ | ⟨herr, hs'⟩
  · exact absurd habs (by simp)
  · subst hs'
    refine ⟨rfl, ?_, ?_, ?_, ?_⟩
    · exact genLoop_votes gen msg (sendOrder rand s) s.iv s.bots
    · exact genLoop_iv_history gen msg (sendOrder rand s) s.iv s.bots
    · intro ev
      apply doSelect_wrongStep
      simp
    · exact genLoop_calls_take gen msg (sendOrder rand s) s.iv s.bots

theorem claim_C5_witness :
    sFc.step = Step.generating ∧
    sFc.bots.map Bot.votes = stc.bots.map Bot.votes ∧
    sFc.iv.history = stc.iv.history ∧
    (∀ ev, doSelect ev sFc = SelectResult.noop sFc) ∧
    (∃ t, ((sendCalls genF randC ("m") stc).map CallRec.botIndex) ++ t =
      sendOrder randC stc) :=
  claim_C5 genF randC ("m") stc sFc ("boom") (by rfl)

/-- C6: the shuffled visiting order is a permutation of the input order for
every random source; for a round on a freshly started session, the resulting
order permutes `range(len(bots))` — exactly the enabled-bot index set, no
duplicates, no omissions — the generation loop visits exactly that order
(which is also the display order used by the vote handler through
`bot_order`), while the roster itself keeps its positions and identifiers
(identity and votes are tracked by roster index, never by display
position). -/
theorem claim_C6 :
    (∀ (rand : Nat → Nat) (l : List Nat), (fisherYates rand l).Perm l) ∧
    (∀ (gen : String → IV → Except String Reply) (rand : Nat → Nat) (msg : String)
      (iv0 : IV) (configs : List BotConfigInput) (ih : History) (s' : State),
      doSend gen rand msg (runStartChat iv0 configs ih) = Except.ok s' →
      s'.botOrder.Perm (List.range (runStartChat iv0 configs ih).bots.length) ∧
      (sendCalls gen rand msg (runStartChat iv0 configs ih)).map CallRec.botIndex =
        s'.botOrder ∧
      s'.bots.map Bot.identifier =
        (runStartChat iv0 configs ih).bots.map Bot.identifier ∧
      s'.bots.map Bot.votes = (runStartChat iv0 configs ih).bots.map Bot.votes) := by
  constructor
  · exact fisherYates_perm
  · intro gen rand msg iv0 configs ih s' h
    obtain ⟨hs', herr, _⟩ := doSend_ok_inv gen rand msg (runStartChat iv0 configs ih) s' h
    subst hs'
    refine ⟨?_, ?_, ?_, ?_⟩
    · exact fisherYates_perm rand (runStartChat iv0 configs ih).botOrder
    · exact genLoop_calls_of_ok gen msg
        (sendOrder rand (runStartChat iv0 configs ih)) _ _ herr
    · exact genLoop_idents gen msg
        (sendOrder rand (runStartChat iv0 configs ih)) _ _
    · exact genLoop_votes gen msg
        (sendOrder rand (runStartChat iv0 configs ih)) _ _

theorem claim_C6_witness :
    (fisherYates randC [0, 1, 2]).Perm [0, 1, 2] ∧
    (s2c.botOrder.Perm (List.range stc.bots.length) ∧
     (sendCalls genC2 randC ("m") stc).map CallRec.botIndex = s2c.botOrder ∧
     s2c.bots.map Bot.identifier = stc.bots.map Bot.identifier ∧
     s2c.bots.map Bot.votes = stc.bots.map Bot.votes) :=
  ⟨claim_C6.1 randC [0, 1, 2],
   claim_C6.2 genC2 randC ("m") iv0c [cfg1] emptyHist s2c (by rfl)⟩

/-- Two bots sharing the user-typed identifier `A`: the first holds the only
vote, the second none. -/
def dupA : Bot :=
  { identifier := "A", context := "ctx", parameters := "preset",
    votes := 1, reply := none }

def dupB : Bot :=
  { identifier := "A", context := "ctx", parameters := "preset",
    votes := 0, reply := none }

def dupBots : List Bot := [dupA, dupB]

/-- C7 counterexample: the claim "whenever total_votes > 0, each bot's share
equals votes / total_votes and the shares sum to 1.0" is false on the code:
`ranking_data` is a dict keyed by the user-typed identifier, so two bots both
named `A` (votes 1 and 0, total 1) collapse onto a single entry holding the
last bot's share 0 — the voted bot's share is absent and the shares sum to 0,
not 1. -/
theorem claim_C7_counter :
    0 < sumVotes dupBots ∧
    rankingOf dupBots = [(("A"), (dupB.votes : ℚ) / (sumVotes dupBots : ℚ))] ∧
    ((rankingOf dupBots).map Prod.snd).sum ≠ 1 := by
  have h1 : rankingOf dupBots =
      [(("A"), (dupB.votes : ℚ) / (sumVotes dupBots : ℚ))] := by
    simp [rankingOf, dictInsert, dupBots, dupA, dupB]
  refine ⟨by decide, h1, ?_⟩
  rw [h1]
  norm_num [dupB, dupBots, dupA, sumVotes]

/-- C7 (amended): the displayed ranking is a pure function of the vote
counters, but as a dict keyed by identifier it collapses duplicate
identifiers (the last bot with a given name wins).  When all identifiers are
distinct the dict has exactly one entry per bot, in roster order, holding
that bot's `votes / total_votes`, and whenever the vote total is positive the
shares sum to exactly 1 (rational division models the float division); the
code computes the ranking only in the accepted-vote branch, where the vote
total is provably positive — the `total_votes = 0` division is never
executed. -/
theorem claim_C7 :
    (∀ (bots : List Bot), (bots.map Bot.identifier).Nodup →
      rankingOf bots =
        bots.map (fun b => (b.identifier, (b.votes : ℚ) / (sumVotes bots : ℚ)))) ∧
    (∀ (bots : List Bot), (bots.map Bot.identifier).Nodup → 0 < sumVotes bots →
      ((rankingOf bots).map Prod.snd).sum = 1) ∧
    (∀ (bots : List Bot) (i : Nat) (b : Bot), (bots.map Bot.identifier).Nodup →
      bots[i]? = some b →
      (rankingOf bots)[i]? =
        some (b.identifier, (b.votes : ℚ) / (sumVotes bots : ℚ))) ∧
    (∀ (ev : SelectData) (s s' : State), doSelect ev s = SelectResult.ok s' →
      0 < sumVotes s'.bots) := by
  refine ⟨rankingOf_eq_map, rankingOf_sum, ?_, ?_⟩
  · intro bots i b hnd h
    rw [rankingOf_eq_map bots hnd]
    simp [List.getElem?_map, h]
  · intro ev s s' h
    obtain ⟨oi, bot, reply, _, _, _, _, hbot, _, hs'⟩ := doSelect_ok_inv ev s s' h
    subst hs'
    have := sumVotes_set_succ s.bots oi bot hbot
    simp only at this ⊢
    omega

theorem claim_C7_witness :
    rankingOf st1c.bots =
      st1c.bots.map (fun b => (b.identifier, (b.votes : ℚ) / (sumVotes st1c.bots : ℚ))) ∧
    ((rankingOf st1c.bots).map Prod.snd).sum = 1 ∧
    (rankingOf st1c.bots)[0]? =
      some (demoBot.identifier, (demoBot.votes : ℚ) / (sumVotes st1c.bots : ℚ)) ∧
    0 < sumVotes st1c.bots :=
  ⟨claim_C7.1 st1c.bots (by decide),
   claim_C7.2.1 st1c.bots (by decide) (by decide),
   claim_C7.2.2.1 st1c.bots 0 demoBot (by decide) (by rfl),
   claim_C7.2.2.2 ev0 st0 st1c (by rfl)⟩


/-- C8: during a round, every Reply Generator invocation receives interface
values whose history is exactly the shared conversation history the round
started from — identical for every bot, and excluding the round's own replies
(those live only in `bot.reply` until a vote is accepted) — and `do_send`
leaves the shared history unchanged whether it finishes or raises, so the
history is unmodified from the start of generation until `do_select` accepts
a vote. -/
theorem claim_C8 (gen : String → IV → Except String Reply) (rand : Nat → Nat)
    (msg : String) (s : State) :
    (∀ c ∈ sendCalls gen rand msg s, c.iv.history = s.iv.history) ∧
    (resultState (doSend gen rand msg s)).iv.history = s.iv.history := by
  constructor
  · intro c hc
    exact genLoop_calls_history gen msg (sendOrder rand s) s.iv s.bots c hc
  · exact doSend_shared_history gen rand msg s

theorem claim_C8_witness :
    (CallRec.mk 0 st0.iv).iv.history = st0.iv.history ∧
    (resultState (doSend genC2 randC ("m") st0)).iv.history = st0.iv.history :=
  ⟨(claim_C8 genC2 randC ("m") st0).1 (CallRec.mk 0 st0.iv) (by decide),
   (claim_C8 genC2 randC ("m") st0).2⟩

/-- C9 counterexample: the claim "stop_session transitions the session to
Idle and discards all session data" is false on the code: `do_stop_chat`
receives and returns no session state at all, so a state in
`WAITING_FOR_VOTE` with a non-empty roster is still exactly that state after
stopping. -/
theorem claim_C9_counter :
    doStopChat st0 = st0 ∧ st0.step ≠ Step.idle ∧ st0.bots ≠ [] := by
  exact ⟨rfl, by decide, by decide⟩

/-- C9 (amended): `do_stop_chat` only hides the chat widgets; it never
touches the session state object — the step is not set back to `IDLE` and no
data is dropped — so calling it once or twice in a row are both no-ops on
session state.  The data is actually discarded when the next chat starts:
the start-chat chain rebuilds the state from scratch with a zero vote
total. -/
theorem claim_C9 (s : State) :
    doStopChat s = s ∧ doStopChat (doStopChat s) = doStopChat s ∧
    (∀ (iv0 : IV) (configs : List BotConfigInput) (ih : History),
      sumVotes (runStartChat iv0 configs ih).bots = 0) :=
  ⟨rfl, rfl, fun _ configs _ => sumVotes_mkBots ((configs.filter (fun c => c.enabled)))⟩

/-- C10: the vote handler's bot lookup is guarded only from below
(`index >= len(history)`); under the precondition
`index < len(history) + len(bot_order)` the `bot_order` lookup is in range,
and for every click index at or beyond that bound the lookup raises — the
error branch is reachable, there being no upper-bound check. -/
theorem claim_C10 :
    (∀ (s : State) (ev : SelectData), s.step = Step.waitingForVote →
      ev.sender = 1 → s.iv.history.visible.length ≤ ev.index →
      ev.index < s.iv.history.visible.length + s.botOrder.length →
      ∃ oi, s.botOrder[ev.index - s.iv.history.visible.length]? = some oi) ∧
    (∀ (s : State) (ev : SelectData), s.step = Step.waitingForVote →
      ev.sender = 1 → s.iv.history.visible.length + s.botOrder.length ≤ ev.index →
      doSelect ev s = SelectResult.lookupError s) := by
  constructor
  · intro s ev _ _ hge hlt
    have hidx : ev.index - s.iv.history.visible.length < s.botOrder.length := by
      omega
    exact ⟨s.botOrder.get ⟨ev.index - s.iv.history.visible.length, hidx⟩,
      List.getElem?_eq_getElem hidx⟩
  · intro s ev h1 h2 h3
    exact select_out_of_range s ev h1 h2 h3

theorem claim_C10_witness :
    (∃ oi, st0.botOrder[ev0.index - st0.iv.history.visible.length]? = some oi) ∧
    doSelect evBig st0 = SelectResult.lookupError st0 :=
  ⟨claim_C10.1 st0 ev0 (by decide) (by decide) (by decide) (by decide),
   claim_C10.2 st0 evBig (by decide) (by decide) (by decide)⟩

end Clinic
